import Mathlib

/-!
Verification of the `fresh-issues` GitHub service layer
(`src/services/github.js`, `github.throttle.js`, `github.cache.js`,
`github.graphql.js`, `github.normalize.js`, `github.constants.js`,
`github.error.js`) against its natural-language specification.

Conventions of the shallow embedding:
* JavaScript values that may be `undefined`/`null` are embedded as `Option`.
* A JavaScript property access on `undefined` (a `TypeError` crash) is
  embedded as `Option.none` propagation: a function that can crash returns
  `Option`.
* JavaScript string truthiness (`""` is falsy) is embedded explicitly
  (`jsOr`, `if s = "" then ...`).
* `Date.now()` timestamps are embedded as `Nat` epoch milliseconds passed
  explicitly; `setTimeout` sleeps are assumed to wake exactly on time.
* ISO-8601 timestamps of identical format compare consistently with their
  lexicographic string order, so `new Date(b) - new Date(a)` inside a sort
  comparator is embedded sign-faithfully by string comparison.
* Network effects are embedded by passing an explicit oracle function
  (`fetchOne`, `respond`, `net`) standing for the upstream; the list of
  arguments the model feeds to the oracle is exactly the list of upstream
  calls the code issues.
-/

namespace FreshIssues

/-! ### JavaScript string helpers -/

/-- JS `a || b` on strings: the empty string is falsy. -/
def jsOr (a b : String) : String := if a = "" then b else a

/-- One scan step of JS `String.prototype.includes`: does `pat` occur as a
contiguous sublist of `hay`? -/
def hasSubList (pat : List Char) : List Char → Bool
  | [] => pat.isPrefixOf []
  | c :: t => pat.isPrefixOf (c :: t) || hasSubList pat t

/-- JS `hay.includes(pat)`. -/
def jsIncludes (hay pat : String) : Bool := hasSubList pat.data hay.data

/-- Auxiliary for JS `String.prototype.replace(pat, '')` with a plain-string
pattern: remove the first occurrence of `pat`, if any. -/
def removeFirstList (pat : List Char) : List Char → List Char
  | [] => []
  | c :: t =>
    if pat.isPrefixOf (c :: t) then (c :: t).drop pat.length
    else c :: removeFirstList pat t

/-- JS `s.replace(pat, '')`: only the first occurrence is removed. -/
def jsRemoveFirst (s pat : String) : String := ⟨removeFirstList pat.data s.data⟩

/-- JS `s.toLowerCase()` (ASCII-relevant cases only; the source applies it to
GraphQL issue states such as `"OPEN"`). -/
def jsToLower (s : String) : String := ⟨s.data.map Char.toLower⟩

/-- JS `s.slice(0, 300)`. -/
def jsSlice300 (s : String) : String := ⟨s.data.take 300⟩

/-- JS `b ? b.slice(0, 300) : ''` applied to a possibly-absent body string. -/
def jsBodyPreview : Option String → String
  | none => ""
  | some s => if s = "" then "" else jsSlice300 s

/-! ### Constants (`github.constants.js`) -/

/-- Constant from `github.constants.js`: minimum gap between consecutive HTTP requests (ms). -/
def MIN_REQUEST_INTERVAL : Nat := 800

/-- Constant from `github.constants.js`: TTL for in-memory cache entries (ms). -/
def CACHE_DURATION : Nat := 120000

/-- Constant from `github.constants.js`: maximum repos bundled into a single batched
GraphQL query. -/
def GQL_BATCH_SIZE : Nat := 10

/-- Lookup in the `github.constants.js` `SORT_QUALIFIER` map, followed by the
`?? 'sort:reactions-desc'` default applied at its use sites. -/
def sortQualifier (s : String) : String :=
  if s = "reactions" then "sort:reactions-desc"
  else if s = "comments" then "sort:comments-desc"
  else if s = "created" then "sort:created-desc"
  else if s = "updated" then "sort:updated-desc"
  else "sort:reactions-desc"

/-! ### Filter and the query builder (`buildSearchQuery`) -/

/-- The filters object consumed by `buildSearchQuery` / `fetchIssues`.
Unset sentinels follow the JS truthiness the source tests: empty string,
zero, `false`, empty label list. -/
structure Filter where
  labels : List String := []
  language : String := ""
  createdAfter : String := ""
  keyword : String := ""
  repo : String := ""
  noAssignee : Bool := false
  minStars : Nat := 0
  minComments : Nat := 0
  sortBy : String := ""
  deriving Repr, DecidableEq

/-- Source `buildSearchQuery` (`github.normalize.js` lines 15–31; the copy at
`github.js` lines 19–59 is line-for-line the same logic): sequential
conditional pushes onto `parts`, then `parts.join(' ')`. -/
def buildSearchQuery (f : Filter) : String :=
  let parts : List String := ["is:issue", "is:open"]
  let parts := if f.repo = "" ∧ f.minStars > 0
    then parts ++ ["stars:>=" ++ toString f.minStars] else parts
  let parts := if f.minComments > 0
    then parts ++ ["comments:>=" ++ toString f.minComments] else parts
  let parts := parts ++ f.labels.map (fun l => "label:\x22" ++ l ++ "\x22")
  let parts := if f.language ≠ "" then parts ++ ["language:" ++ f.language] else parts
  let parts := if f.createdAfter ≠ "" then parts ++ ["created:>" ++ f.createdAfter] else parts
  let parts := if f.keyword ≠ "" then parts ++ [f.keyword] else parts
  let parts := if f.repo ≠ "" then parts ++ ["repo:" ++ f.repo] else parts
  let parts := if f.noAssignee then parts ++ ["no:assignee"] else parts
  String.intercalate " " parts

/-! ### Canonical issue record and the two upstream shapes -/

/-- A label as selected by both protocols (`name`, `color`). -/
structure Label where
  name : String
  color : String
  deriving Repr, DecidableEq

/-- The canonical `user` sub-record produced by both normalizers. -/
structure IssueUser where
  login : String
  avatar : String
  url : String
  deriving Repr, DecidableEq

/-- An assignee entry; the GraphQL query selects only `login`
(`assignees(first: 1) { nodes { login } }`). -/
structure Assignee where
  login : String
  deriving Repr, DecidableEq

/-- The canonical issue record produced by `normalizeIssue` and
`normalizeGraphQLIssue`.  `comments` is `Option Nat` because the row-protocol
normalizer copies `issue.comments` verbatim, which is `undefined` when that
field is absent upstream. -/
structure Issue where
  id : Nat
  number : Nat
  title : String
  url : String
  repoUrl : String
  repoFullName : String
  labels : List Label
  user : IssueUser
  comments : Option Nat
  createdAt : String
  updatedAt : String
  body : String
  state : String
  assignee : Option Assignee
  reactions : Nat
  deriving Repr, DecidableEq

/-- Row-protocol (REST) author object; the source reads `login`,
`avatar_url`, `html_url`. -/
structure RestUser where
  login : String
  avatar_url : String
  html_url : String
  deriving Repr, DecidableEq

/-- Row-protocol `reactions` object; the source reads `total_count`. -/
structure RestReactions where
  total_count : Nat
  deriving Repr, DecidableEq

/-- A row-protocol issue as consumed by `normalizeIssue`.  Fields that GitHub
documents as nullable/omittable (`user`, `comments`, `body`, `assignee`,
`reactions`) are `Option`. -/
structure RestIssue where
  id : Nat
  number : Nat
  title : String
  html_url : String
  repository_url : String
  labels : List Label
  user : Option RestUser
  comments : Option Nat
  created_at : String
  updated_at : String
  body : Option String
  state : String
  assignee : Option Assignee
  reactions : Option RestReactions
  deriving Repr, DecidableEq

/-- GraphQL `author { login avatarUrl url }`. -/
structure GAuthor where
  login : String
  avatarUrl : String
  url : String
  deriving Repr, DecidableEq

/-- GraphQL `comments { totalCount }` / `reactions { totalCount }`. -/
structure GCount where
  totalCount : Nat
  deriving Repr, DecidableEq

/-- GraphQL `labels(first: 10) { nodes { name color } }`. -/
structure GLabelConn where
  nodes : List Label
  deriving Repr, DecidableEq

/-- GraphQL `assignees(first: 1) { nodes { login } }`. -/
structure GAssigneeConn where
  nodes : List Assignee
  deriving Repr, DecidableEq

/-- GraphQL `repository { nameWithOwner url }`. -/
structure GRepo where
  nameWithOwner : String
  url : String
  deriving Repr, DecidableEq

/-- A graph-protocol issue node as consumed by `normalizeGraphQLIssue`;
fields the source guards with `?.`/`??` are `Option`. -/
structure GNode where
  databaseId : Nat
  number : Nat
  title : String
  url : String
  bodyText : Option String
  state : Option String
  createdAt : String
  updatedAt : String
  comments : Option GCount
  reactions : Option GCount
  labels : Option GLabelConn
  author : Option GAuthor
  assignees : Option GAssigneeConn
  repository : GRepo
  deriving Repr, DecidableEq

/-! ### The two normalizers (`github.normalize.js`) -/

/-- Source `normalizeIssue` (`github.normalize.js` lines 39–61, identical copy at
`github.js` lines 248–270).  The source dereferences `issue.user.login`
without a guard, so an absent `user` is a `TypeError`: embedded as `none`.
`issue.reactions?.total_count || 0` and `issue.body ? slice : ''` are
embedded with their JS falsiness. -/
def normalizeIssue (issue : RestIssue) : Option Issue :=
  match issue.user with
  | none => none
  | some u => some {
      id := issue.id
      number := issue.number
      title := issue.title
      url := issue.html_url
      repoUrl := issue.repository_url
      repoFullName := jsRemoveFirst issue.repository_url "https://api.github.com/repos/"
      labels := issue.labels.map (fun (l : Label) => ⟨l.name, l.color⟩)
      user := ⟨u.login, u.avatar_url, u.html_url⟩
      comments := issue.comments
      createdAt := issue.created_at
      updatedAt := issue.updated_at
      body := jsBodyPreview issue.body
      state := issue.state
      assignee := issue.assignee
      reactions := match issue.reactions with
        | some r => r.total_count
        | none => 0 }

/-- Source `normalizeGraphQLIssue` (`github.normalize.js` lines 70–92).  Every
optional access in the source is `?.`-guarded with a `??` default, so this
entry point is total. -/
def normalizeGraphQLIssue (node : GNode) : Issue :=
  { id := node.databaseId
    number := node.number
    title := node.title
    url := node.url
    repoUrl := "https://api.github.com/repos/" ++ node.repository.nameWithOwner
    repoFullName := node.repository.nameWithOwner
    labels := (match node.labels with
      | some c => c.nodes
      | none => []).map (fun (l : Label) => ⟨l.name, l.color⟩)
    user := { login := (node.author.map (fun a => a.login)).getD "ghost"
              avatar := (node.author.map (fun a => a.avatarUrl)).getD ""
              url := (node.author.map (fun a => a.url)).getD "" }
    comments := some (match node.comments with
      | some c => c.totalCount
      | none => 0)
    createdAt := node.createdAt
    updatedAt := node.updatedAt
    body := jsBodyPreview node.bodyText
    state := (node.state.map jsToLower).getD "open"
    assignee := (match node.assignees with
      | some c => c.nodes
      | none => []).head?
    reactions := match node.reactions with
      | some c => c.totalCount
      | none => 0 }

/-- A row-protocol record and a graph-protocol node describe the same
upstream issue — same id and the same value in every field both shapes carry
(the graph state is upper-case upstream, so the row state is its lower-case
form; the row `repository_url` is the API prefix plus the graph
`nameWithOwner`) — and additionally have the author present in both shapes.
The author-present conjunct is a genuine restriction beyond "same field
values": on the pair whose author is absent in both shapes the two
normalizers disagree (the row one fails on the unguarded `issue.user.login`
access while the graph one produces the ghost record), so the unrestricted
equivalence is false and this correspondence carries the amended claim's
hypothesis. -/
def SameIssue (r : RestIssue) (g : GNode) : Prop :=
  r.id = g.databaseId ∧
  r.number = g.number ∧
  r.title = g.title ∧
  r.html_url = g.url ∧
  r.repository_url = "https://api.github.com/repos/" ++ g.repository.nameWithOwner ∧
  r.labels = (match g.labels with
    | some c => c.nodes
    | none => []) ∧
  r.user = g.author.map (fun a => ⟨a.login, a.avatarUrl, a.url⟩) ∧
  g.author.isSome = true ∧
  r.comments = some (match g.comments with
    | some c => c.totalCount
    | none => 0) ∧
  r.created_at = g.createdAt ∧
  r.updated_at = g.updatedAt ∧
  r.body = g.bodyText ∧
  r.state = (g.state.map jsToLower).getD "open" ∧
  r.assignee = (match g.assignees with
    | some c => c.nodes
    | none => []).head? ∧
  (match r.reactions with
    | some x => x.total_count
    | none => 0) =
    (match g.reactions with
    | some c => c.totalCount
    | none => 0)

/-! ### Throttle queue (`github.throttle.js`) -/

/-- One iteration of the `processQueue` drain loop (`github.throttle.js`
lines 37–49): the timestamp at which the next dispatch happens.  `now` is
the event-loop clock, `lastReq` is `lastRequestTime`, `retryU` is the
`_retryAfterUntil` deadline (fixed across the drain, as set by one
`setRetryAfterUntil` call).  The loop first sleeps out any positive
`_retryAfterUntil - Date.now()`, then any remaining
`MIN_REQUEST_INTERVAL - (Date.now() - lastRequestTime)`, then records
`lastRequestTime = Date.now()`: that instant is the dispatch timestamp. -/
def throttleNext (retryU now lastReq : Nat) : Nat :=
  let now1 := if retryU > now then retryU else now
  if now1 - lastReq < MIN_REQUEST_INTERVAL then lastReq + MIN_REQUEST_INTERVAL
  else now1

/-- The dispatch timestamps of the whole drain: each iteration dispatches at
`throttleNext`, sets `lastRequestTime` to it, and resumes after the request's
own running time `dur`. -/
def dispatchTimes (retryU : Nat) : Nat → Nat → List Nat → List Nat
  | _, _, [] => []
  | now, lastReq, dur :: rest =>
    let now2 := throttleNext retryU now lastReq
    now2 :: dispatchTimes retryU (now2 + dur) now2 rest

/-! ### Cache (`github.cache.js`) -/

/-- A cache entry: `{ data, timestamp, etag }`.  The payload type is a
parameter (`getCached` is payload-agnostic). -/
structure CacheEntry (α : Type) where
  data : α
  timestamp : Nat
  etag : Option String
  deriving Repr, DecidableEq

/-- The in-memory `CACHE` map, embedded as an association list keyed by the
cache-key string (later bindings shadow earlier ones, like `Map.set`). -/
def CacheMap (α : Type) := List (String × CacheEntry α)

/-- Lookup, as `Map.get`. -/
def cacheGet {α : Type} (m : CacheMap α) (k : String) : Option (CacheEntry α) :=
  (m.find? (fun p => p.1 == k)).map Prod.snd

/-- Insertion, as `Map.set`. -/
def cacheSet {α : Type} (m : CacheMap α) (k : String) (e : CacheEntry α) :
    CacheMap α := (k, e) :: m

/-- What the `makeRequest` loader resolves with: `{ data, etag, notModified }`. -/
structure LoaderResult (α : Type) where
  data : α
  etag : Option String
  notModified : Bool
  deriving Repr, DecidableEq

/-- Source `getCached` (`github.cache.js` lines 26–46), embedded as a state
transformer.  `now` is `Date.now()` at the freshness check; `nowStore` is
`Date.now()` when the loader's promise resolves.  The returned `Nat` counts
requests pushed through `queueRequest` (0 on a fresh hit, 1 otherwise).
The loader receives `cached?.etag ?? null`. -/
def getCached {α : Type} (cache : CacheMap α) (cacheKey : String)
    (makeRequest : Option String → LoaderResult α) (now nowStore : Nat) :
    α × CacheMap α × Nat :=
  let cached := cacheGet cache cacheKey
  match cached with
  | some e =>
    if now - e.timestamp < CACHE_DURATION then
      (e.data, cache, 0)
    else
      let r := makeRequest e.etag
      if r.notModified then
        (e.data, cacheSet cache cacheKey { e with timestamp := nowStore }, 1)
      else
        (r.data, cacheSet cache cacheKey ⟨r.data, nowStore, r.etag⟩, 1)
  | none =>
    let r := makeRequest none
    (r.data, cacheSet cache cacheKey ⟨r.data, nowStore, r.etag⟩, 1)

/-! ### Error classification -/

/-- The three outcomes of the row-protocol 403 branch
(`github.js` lines 116–130): the rate-limit message branch, the abuse
branch, and the unclassified forbidden fallback. -/
inductive Rest403
  | rateLimit
  | abuse
  | forbidden
  deriving Repr, DecidableEq

/-- The 403 branch of `fetchIssues` (`github.js` lines 116–130):
`errorData.message?.includes('rate limit') || rateLimitRemaining === '0'`
selects the rate-limit message pair; else
`errorData.message?.includes('abuse')` selects the abuse pair; else the
forbidden fallback.  `message` is the parsed body's `message` property and
`remaining` the `x-ratelimit-remaining` header, both possibly absent. -/
def classify403 (message : Option String) (remaining : Option String) : Rest403 :=
  if (message.map (fun m => jsIncludes m "rate limit")).getD false
      ∨ remaining = some "0" then
    Rest403.rateLimit
  else if (message.map (fun m => jsIncludes m "abuse")).getD false then
    Rest403.abuse
  else
    Rest403.forbidden

/-- The secondary-rate-limit test of `graphqlRequest`
(`github.graphql.js` lines 74–77): status 403 and the body message or
documentation link carries the secondary marker. -/
def gqlIsSecondaryRL (status : Nat) (message docUrl : Option String) : Bool :=
  status == 403 &&
    ((message.map (fun m => jsIncludes m "secondary rate limit")).getD false ||
     (docUrl.map (fun u => jsIncludes u "secondary-rate-limits")).getD false)

/-- The typed error thrown by `graphqlRequest` for a non-OK HTTP response
(`github.graphql.js` lines 81–86): fields of the `GitHubAPIError` that the
claims inspect. -/
structure GqlError where
  message : String
  status : Nat
  isSecondaryRateLimit : Bool
  deriving Repr, DecidableEq

/-- The error construction of `graphqlRequest`'s `!res.ok` branch
(`github.graphql.js` lines 70–87). -/
def gqlClassifyHttp (status : Nat) (message docUrl : Option String) : GqlError :=
  let sec := gqlIsSecondaryRL status message docUrl
  { message := if sec then
      "You're making requests too quickly. The app will slow down automatically."
    else jsOr (message.getD "") ("GitHub API error: " ++ toString status)
    status := status
    isSecondaryRateLimit := sec }

/-! ### Row-protocol request issuing (`fetchIssues`, `github.js` lines 68–91)

`fetchIssues` builds a URL and headers and calls `fetch` directly: it never
reads the `CACHE` map, never goes through `queueRequest`, and never attaches
an `If-None-Match` header.  To make those absences provable the embedding
threads the cache map through and counts network dispatches. -/

/-- The header list `fetchIssues` sends (`github.js` lines 73–79):
`Accept`, plus `Authorization` when a token is given. -/
def fetchIssuesHeaders (token : String) : List (String × String) :=
  ("Accept", "application/vnd.github+json") ::
    (if token ≠ "" then [("Authorization", "Bearer " ++ token)] else [])

/-- The URL `fetchIssues` requests (`github.js` lines 69–71); `enc` stands
for `encodeURIComponent`. -/
def fetchIssuesUrl (enc : String → String) (filters : Filter)
    (page perPage : Nat) : String :=
  "https://api.github.com" ++ "/search/issues?q=" ++ enc (buildSearchQuery filters)
    ++ "&sort=" ++ jsOr filters.sortBy "reactions" ++ "&order=desc&page="
    ++ toString page ++ "&per_page=" ++ toString perPage

/-- The request-issuing phase of `fetchIssues` (`github.js` lines 68–83):
one unconditional `fetch` of the built URL with the built headers.  `net` is
the network oracle; the result records the response, the cache map after the
call (the function never touches it), and the number of network dispatches. -/
def fetchIssuesRequest {α β : Type} (enc : String → String)
    (net : String → List (String × String) → β) (filters : Filter)
    (token : String) (page perPage : Nat) (cache : CacheMap α) :
    β × CacheMap α × Nat :=
  (net (fetchIssuesUrl enc filters page perPage) (fetchIssuesHeaders token),
   cache, 1)

/-! ### Shared merge, de-duplication and sort (`github.js` lines 223–240,
`github.graphql.js` lines 238–250) -/

/-- De-duplication by issue id with a `seen` set, first occurrence wins. -/
def dedupeAux (seen : List Nat) : List Issue → List Issue
  | [] => []
  | i :: rest =>
    if seen.contains i.id then dedupeAux seen rest
    else i :: dedupeAux (i.id :: seen) rest

/-- The `// Deduplicate by issue id` loop. -/
def dedupeById (l : List Issue) : List Issue := dedupeAux [] l

/-- JS `x || y` on comparator values: `0` is falsy. -/
def jsOrInt (x y : Int) : Int := if x = 0 then y else x

/-- Sign-faithful embedding of `new Date(b) - new Date(a)` for identically
formatted ISO-8601 strings (which order lexicographically). -/
def dateDiff (b a : String) : Int :=
  if b = a then 0 else if a < b then 1 else -1

/-- A possibly-absent comment count inside the comparator; the aggregator
only sorts issues whose counts the normalizers populated. -/
def commentsNum (o : Option Nat) : Int := (o.getD 0 : Nat)

/-- The sort comparator (`github.js` lines 235–240). -/
def jsCmp (sortParam : String) (a b : Issue) : Int :=
  if sortParam = "comments" then commentsNum b.comments - commentsNum a.comments
  else if sortParam = "created" then dateDiff b.createdAt a.createdAt
  else if sortParam = "updated" then dateDiff b.updatedAt a.updatedAt
  else jsOrInt ((b.reactions : Int) - (a.reactions : Int))
    (dateDiff b.createdAt a.createdAt)

/-- Source `unique.sort(comparator)`: a stable sort ascending in the comparator. -/
def jsSortIssues (sortParam : String) (l : List Issue) : List Issue :=
  l.mergeSort (fun a b => jsCmp sortParam a b ≤ 0)

/-! ### Row-protocol aggregator (`fetchIssuesForRepos`, `github.js`
lines 185–243) -/

/-- What one `fetchIssues` promise resolves with (`github.js` lines 169–174). -/
structure RestResult where
  totalCount : Nat
  items : List Issue
  rateLimitRemaining : Nat
  rateLimitReset : Nat
  deriving Repr, DecidableEq

/-- The fields of a rejected `fetchIssues` promise's reason that
`fetchIssuesForRepos` reads: `message`, `toString()`, `status`. -/
structure FetchErr where
  message : Option String
  str : String
  status : Option Nat
  deriving Repr, DecidableEq

/-- Source `result.reason?.message || result.reason?.toString() || 'Unknown error'`. -/
def errText (e : FetchErr) : String :=
  jsOr (e.message.getD "") (jsOr e.str "Unknown error")

/-- A per-repository error entry (`github.js` lines 215–219). -/
structure RepoError where
  repo : String
  error : String
  status : Option Nat
  deriving Repr, DecidableEq

/-- Accumulator of the settled-results loop (`github.js` lines 196–221). -/
structure AggAcc where
  items : List Issue
  totalCount : Nat
  rl : Option Nat
  reset : Option Nat
  errors : List RepoError
  deriving Repr, DecidableEq

/-- One iteration of the settled-results loop (`github.js` lines 202–221). -/
def aggStep (acc : AggAcc) (p : String × Except FetchErr RestResult) : AggAcc :=
  match p.2 with
  | Except.ok v =>
    { acc with
      items := acc.items ++ v.items
      totalCount := acc.totalCount + v.totalCount
      rl := match acc.rl with
        | none => some v.rateLimitRemaining
        | some cur => if v.rateLimitRemaining < cur
            then some v.rateLimitRemaining else some cur
      reset := if v.rateLimitReset ≠ 0 then some v.rateLimitReset else acc.reset }
  | Except.error e =>
    { acc with errors := acc.errors ++ [⟨p.1, errText e, e.status⟩] }

/-- Left-to-right drain of the settled results. -/
def aggregateFrom (acc : AggAcc) : List (String × Except FetchErr RestResult) → AggAcc
  | [] => acc
  | p :: rest => aggregateFrom (aggStep acc p) rest

/-- The aggregated result of `fetchIssuesForRepos`. -/
structure ReposResult where
  totalCount : Nat
  items : List Issue
  rateLimitRemaining : Option Nat
  rateLimitReset : Option Nat
  errors : List RepoError
  deriving Repr, DecidableEq

/-- Source `fetchIssuesForRepos` (`github.js` lines 185–243).  `fetchOne repo`
stands for the settled outcome of
`fetchIssues({...filters, repo, minStars: 0}, token, page, perPage)`;
`Promise.allSettled(repoNames.map(...))` starts one `fetchIssues` call per
repository before any of them settles, so the second component — the
repositories for which an upstream call is issued — is the whole list. -/
def fetchIssuesForRepos (fetchOne : String → Except FetchErr RestResult)
    (repoNames : Option (List String)) (sortBy : String) :
    ReposResult × List String :=
  match repoNames with
  | none => (⟨0, [], none, none, []⟩, [])
  | some l =>
    if l.isEmpty then (⟨0, [], none, none, []⟩, [])
    else
      let settled := l.map (fun repo => (repo, fetchOne repo))
      let acc := aggregateFrom ⟨[], 0, none, none, []⟩ settled
      let unique := dedupeById acc.items
      ({ totalCount := acc.totalCount
         items := jsSortIssues (jsOr sortBy "reactions") unique
         rateLimitRemaining := acc.rl
         rateLimitReset := acc.reset
         errors := acc.errors }, l)

/-! ### Graph-protocol batched aggregator (`fetchIssuesForReposGraphQL`,
`github.graphql.js` lines 179–253) -/

/-- One alias result `data[repo_i]`: `{ issueCount, nodes }`; `search.nodes`
entries can be `null` (filtered with `.filter(Boolean)`). -/
structure GRepoData where
  nodes : Option (List (Option GNode))
  issueCount : Nat
  deriving Repr, DecidableEq

/-- The `data` object of one batched response, positional by alias index:
`data?.[repo_i]` is entry `i` (absent aliases are `none`). -/
def GBatch := List (Option GRepoData)

/-- The fields of a failed `graphqlRequest` that the batch loop reads:
`err?.message`, `err?.status`, `err?.isRateLimit`. -/
structure GqlFail where
  message : Option String
  status : Option Nat
  isRateLimit : Bool
  deriving Repr, DecidableEq

/-- The per-alias item collection of one successful chunk
(`github.graphql.js` lines 220–228). -/
def collectChunk (d : GBatch) (c : List String) : List Issue :=
  (List.range c.length).flatMap (fun i =>
    match (d.get? i).getD none with
    | some rd => ((rd.nodes.getD []).filterMap id).map normalizeGraphQLIssue
    | none => [])

/-- The per-alias `issueCount` sum of one successful chunk. -/
def chunkTotal (d : GBatch) (c : List String) : Nat :=
  ((List.range c.length).map (fun i =>
    match (d.get? i).getD none with
    | some rd => rd.issueCount
    | none => 0)).sum

/-- Fuel-based recursion for the chunking loop (each round drops
`GQL_BATCH_SIZE > 0` elements, so `l.length` rounds of fuel always
suffice; the fuel only makes the recursion structural). -/
def chunksOfAux : Nat → List String → List (List String)
  | _, [] => []
  | 0, _ :: _ => []
  | fuel + 1, x :: xs =>
    (x :: xs).take GQL_BATCH_SIZE :: chunksOfAux fuel ((x :: xs).drop GQL_BATCH_SIZE)

/-- Source `repoNames.slice(start, start + GQL_BATCH_SIZE)` for
`start = 0, GQL_BATCH_SIZE, 2·GQL_BATCH_SIZE, …`. -/
def chunksOf (l : List String) : List (List String) := chunksOfAux l.length l

/-- The search string built for one repository alias
(`github.graphql.js` lines 184–186). -/
def repoQueryOf (f : Filter) (repo : String) : String :=
  buildSearchQuery { f with repo := repo, minStars := 0 } ++ " "
    ++ sortQualifier (jsOr f.sortBy "reactions")

/-- Accumulated outcome of the chunk loop (`github.graphql.js`
lines 194–236): items and totals of successful chunks, per-repository error
entries of failed chunks, and the chunks for which a request was issued. -/
structure BatchAcc where
  items : List Issue
  total : Nat
  errors : List RepoError
  requests : List (List String)
  deriving Repr, DecidableEq

/-- The chunk loop of `fetchIssuesForReposGraphQL` (`github.graphql.js`
lines 194–236).  `respond c` stands for `graphqlRequest` on the single
aliased query document built for chunk `c` (one aliased sub-query per
repository of `c`, each over `repoQueryOf`).  A caught failure appends one
error entry per repository of the chunk; `err?.isRateLimit || err?.status
=== 429` breaks out of the loop. -/
def runBatches (respond : List String → Except GqlFail GBatch) :
    List (List String) → BatchAcc
  | [] => ⟨[], 0, [], []⟩
  | c :: rest =>
    match respond c with
    | Except.ok d =>
      let r := runBatches respond rest
      ⟨collectChunk d c ++ r.items, chunkTotal d c + r.total, r.errors,
       c :: r.requests⟩
    | Except.error e =>
      if e.isRateLimit || e.status == some 429 then
        ⟨[], 0, c.map (fun repo => ⟨repo, e.message.getD "Unknown error", e.status⟩),
         [c]⟩
      else
        let r := runBatches respond rest
        ⟨r.items, r.total,
         c.map (fun repo => ⟨repo, e.message.getD "Unknown error", e.status⟩)
           ++ r.errors,
         c :: r.requests⟩

/-- Source `fetchIssuesForReposGraphQL` (`github.graphql.js` lines 179–253) minus
the rate-limit header bookkeeping: chunk fan-out, then the shared
de-duplicate-and-sort step. -/
def fetchIssuesForReposGraphQL (respond : List String → Except GqlFail GBatch)
    (repoNames : List String) (sortBy : String) : BatchAcc :=
  let r := runBatches respond (chunksOf repoNames)
  { r with items := jsSortIssues (jsOr sortBy "reactions") (dedupeById r.items) }

/-! ### Spec-side clause list for the query builder

These definitions follow the specification's words (section 4.1: a
conjunction of independently-optional clauses in a fixed documented order),
to be compared with the source-derived `buildSearchQuery`. -/

/-- Spec: the open+unresolved-state clauses. -/
def baseSeg : List String := ["is:issue", "is:open"]

/-- Spec: star threshold, omitted when a target repository is set. -/
def starSeg (f : Filter) : List String :=
  if f.repo = "" ∧ f.minStars > 0 then ["stars:>=" ++ toString f.minStars] else []

/-- Spec: comment threshold. -/
def commentSeg (f : Filter) : List String :=
  if f.minComments > 0 then ["comments:>=" ++ toString f.minComments] else []

/-- Spec: one quoted clause per label. -/
def labelSeg (f : Filter) : List String :=
  f.labels.map (fun l => "label:\x22" ++ l ++ "\x22")

/-- Spec: language clause. -/
def langSeg (f : Filter) : List String :=
  if f.language ≠ "" then ["language:" ++ f.language] else []

/-- Spec: creation-lower-bound clause. -/
def createdSeg (f : Filter) : List String :=
  if f.createdAfter ≠ "" then ["created:>" ++ f.createdAfter] else []

/-- Spec: free-text keyword clause, inserted verbatim. -/
def keywordSeg (f : Filter) : List String :=
  if f.keyword ≠ "" then [f.keyword] else []

/-- Spec: repository-scope clause. -/
def repoSeg (f : Filter) : List String :=
  if f.repo ≠ "" then ["repo:" ++ f.repo] else []

/-- Spec: unassigned clause. -/
def assigneeSeg (f : Filter) : List String :=
  if f.noAssignee then ["no:assignee"] else []

/-- Spec: the full clause list in the documented fixed order. -/
def specClauses (f : Filter) : List String :=
  baseSeg ++ starSeg f ++ commentSeg f ++ labelSeg f ++ langSeg f
    ++ createdSeg f ++ keywordSeg f ++ repoSeg f ++ assigneeSeg f

/-- The abort test of the batch loop: `err?.isRateLimit || err?.status === 429`
on a rejected chunk, `false` on a fulfilled one. -/
def rlStop : Except GqlFail GBatch → Bool
  | Except.ok _ => false
  | Except.error e => e.isRateLimit || e.status == some 429

/-! ## Helper lemmas -/

/-- A string of positive length is not the empty string. -/
theorem ne_empty_of_len_pos (s : String) (h : 0 < s.length) : s ≠ "" := by
  intro hEq
  rw [hEq] at h
  exact absurd h (by decide)

/-- A nonempty string stays nonempty after appending. -/
theorem append_len_pos (a b : String) (h : 0 < a.length) : 0 < (a ++ b).length := by
  rw [String.length_append]
  omega

/-- A string different from `""` has positive length. -/
theorem len_pos_of_ne_empty (s : String) (h : s ≠ "") : 0 < s.length := by
  by_contra h0
  have hd : s.data = [] := List.length_eq_zero.mp (Nat.le_zero.mp (Nat.not_lt.mp h0))
  apply h
  cases s
  simp only at hd
  rw [hd]

/-- A conditional push onto an accumulator list is an append of a
conditional segment. -/
theorem ite_append_form {α : Type} (c : Prop) [Decidable c] (p X : List α) :
    (if c then p ++ X else p) = p ++ if c then X else [] := by
  split <;> simp

/-! ## C9 — query builder -/

/-- C9: for every Filter, `buildSearchQuery` emits its optional clauses in
the documented fixed order (the spec-side `specClauses` concatenation),
never produces an empty clause, omits the star-threshold segment whenever a
target repository is set regardless of the minimum-stars value, and emits
exactly one quoted clause per label (the other segments are one clause when
their field is enabled and none at its unset sentinel, by definition of the
segments). -/
theorem buildSearchQuery_spec (f : Filter) :
    buildSearchQuery f = String.intercalate " " (specClauses f) ∧
    (∀ c ∈ specClauses f, c ≠ "") ∧
    (f.repo ≠ "" → starSeg f = []) ∧
    (labelSeg f).length = f.labels.length := by
  refine ⟨?_, ?_, ?_, ?_⟩
  · simp only [buildSearchQuery, specClauses, baseSeg, starSeg, commentSeg,
      labelSeg, langSeg, createdSeg, keywordSeg, repoSeg, assigneeSeg,
      ite_append_form]
  · intro c hc
    simp only [specClauses, List.mem_append] at hc
    rcases hc with ((((((((hc | hc) | hc) | hc) | hc) | hc) | hc) | hc) | hc)
    · simp only [baseSeg, List.mem_cons, List.not_mem_nil, or_false] at hc
      rcases hc with rfl | rfl <;> decide
    · by_cases h : f.repo = "" ∧ f.minStars > 0
      · simp only [starSeg, if_pos h, List.mem_singleton] at hc
        subst hc
        exact ne_empty_of_len_pos _ (append_len_pos _ _ (by decide))
      · simp [starSeg, if_neg h] at hc
    · by_cases h : f.minComments > 0
      · simp only [commentSeg, if_pos h, List.mem_singleton] at hc
        subst hc
        exact ne_empty_of_len_pos _ (append_len_pos _ _ (by decide))
      · simp [commentSeg, if_neg h] at hc
    · simp only [labelSeg, List.mem_map] at hc
      obtain ⟨l, _, rfl⟩ := hc
      exact ne_empty_of_len_pos _ (append_len_pos _ _ (append_len_pos _ _ (by decide)))
    · by_cases h : f.language ≠ ""
      · simp only [langSeg, if_pos h, List.mem_singleton] at hc
        subst hc
        exact ne_empty_of_len_pos _ (append_len_pos _ _ (by decide))
      · simp [langSeg, if_neg h] at hc
    · by_cases h : f.createdAfter ≠ ""
      · simp only [createdSeg, if_pos h, List.mem_singleton] at hc
        subst hc
        exact ne_empty_of_len_pos _ (append_len_pos _ _ (by decide))
      · simp [createdSeg, if_neg h] at hc
    · by_cases h : f.keyword ≠ ""
      · simp only [keywordSeg, if_pos h, List.mem_singleton] at hc
        subst hc
        exact h
      · simp [keywordSeg, if_neg h] at hc
    · by_cases h : f.repo ≠ ""
      · simp only [repoSeg, if_pos h, List.mem_singleton] at hc
        subst hc
        exact ne_empty_of_len_pos _ (append_len_pos _ _ (by decide))
      · simp [repoSeg, if_neg h] at hc
    · by_cases h : f.noAssignee
      · simp only [assigneeSeg, if_pos h, List.mem_singleton] at hc
        subst hc
        decide
      · simp [assigneeSeg, if_neg h] at hc
  · intro h
    simp [starSeg, h]
  · simp [labelSeg]

/-- C9 witness: a concrete filter with every field enabled except the star
threshold (suppressed by the repository scope). -/
theorem buildSearchQuery_spec_witness :
    buildSearchQuery { labels := ["good first issue", "bug"],
                       language := "Go",
                       createdAfter := "2026-10-11T00:00:00Z",
                       keyword := "panic", repo := "o/r", noAssignee := true,
                       minStars := 50, minComments := 2 } =
      String.intercalate " "
        (specClauses { labels := ["good first issue", "bug"],
                       language := "Go",
                       createdAfter := "2026-10-11T00:00:00Z",
                       keyword := "panic", repo := "o/r", noAssignee := true,
                       minStars := 50, minComments := 2 }) ∧
    starSeg { labels := ["good first issue", "bug"],
              language := "Go",
              createdAfter := "2026-10-11T00:00:00Z",
              keyword := "panic", repo := "o/r", noAssignee := true,
              minStars := 50, minComments := 2 } = [] := by
  constructor
  · exact (buildSearchQuery_spec _).1
  · exact (buildSearchQuery_spec _).2.2.1 (by decide)

/-! ## C2 — throttle queue spacing and back-off -/

/-- The next dispatch instant is past the back-off deadline, past the
minimum spacing since the previous dispatch, and not in the past. -/
theorem throttleNext_ge (retryU now lastReq : Nat) :
    retryU ≤ throttleNext retryU now lastReq ∧
    lastReq + MIN_REQUEST_INTERVAL ≤ throttleNext retryU now lastReq := by
  simp only [throttleNext, MIN_REQUEST_INTERVAL]
  split_ifs <;> omega

/-- Every dispatch timestamp of a drain respects the back-off deadline and
sits at least one spacing interval after the `lastRequestTime` the drain
started from. -/
theorem dispatchTimes_lb (retryU : Nat) (durs : List Nat) :
    ∀ now lastReq, ∀ t ∈ dispatchTimes retryU now lastReq durs,
      retryU ≤ t ∧ lastReq + MIN_REQUEST_INTERVAL ≤ t := by
  induction durs with
  | nil =>
    intro now lastReq t ht
    simp [dispatchTimes] at ht
  | cons dur rest ih =>
    intro now lastReq t ht
    simp only [dispatchTimes, List.mem_cons] at ht
    rcases ht with rfl | ht
    · exact throttleNext_ge retryU now lastReq
    · have h2 := ih _ _ t ht
      have h1 := throttleNext_ge retryU now lastReq
      exact ⟨h2.1, by omega⟩

/-- Consecutive dispatch timestamps are at least `MIN_REQUEST_INTERVAL`
apart. -/
theorem dispatchTimes_chain (retryU : Nat) (durs : List Nat) :
    ∀ now lastReq, List.Chain' (fun a b => a + MIN_REQUEST_INTERVAL ≤ b)
      (dispatchTimes retryU now lastReq durs) := by
  induction durs with
  | nil =>
    intro now lastReq
    simp [dispatchTimes]
  | cons dur rest ih =>
    intro now lastReq
    simp only [dispatchTimes]
    rw [List.chain'_cons']
    refine ⟨?_, ih _ _⟩
    intro y hy
    exact (dispatchTimes_lb retryU rest _ _ y (List.mem_of_mem_head? hy)).2

/-- C2: for every back-off deadline, clock, previous-dispatch time and
back-to-back queue of operations, the dispatch timestamps produced by the
`processQueue` drain are separated pairwise by at least
`MIN_REQUEST_INTERVAL` (800 ms), and no operation is dispatched before the
back-off deadline set via `setRetryAfterUntil`: each dispatch waits out the
active back-off deadline in full, then any remaining minimum-spacing gap. -/
theorem processQueue_spacing (retryU now lastReq : Nat) (durs : List Nat) :
    List.Chain' (fun a b => a + MIN_REQUEST_INTERVAL ≤ b)
      (dispatchTimes retryU now lastReq durs) ∧
    ∀ t ∈ dispatchTimes retryU now lastReq durs, retryU ≤ t :=
  ⟨dispatchTimes_chain retryU durs now lastReq,
   fun t ht => (dispatchTimes_lb retryU durs now lastReq t ht).1⟩

/-- C2 witness: three operations queued back-to-back at clock 1000 under a
back-off deadline of 5000. -/
theorem processQueue_spacing_witness :
    List.Chain' (fun a b => a + MIN_REQUEST_INTERVAL ≤ b)
      (dispatchTimes 5000 1000 0 [100, 2000, 0]) ∧
    ∀ t ∈ dispatchTimes 5000 1000 0 [100, 2000, 0], 5000 ≤ t :=
  processQueue_spacing 5000 1000 0 [100, 2000, 0]

/-! ## C10 — empty repository list -/

/-- C10: `fetchIssuesForRepos` on a `null`/`undefined` or empty repository
list returns the empty success `{totalCount: 0, items: [], rateLimitRemaining:
null, rateLimitReset: null, errors: []}` and issues no upstream call (the
second component, the list of repositories called, is empty). -/
theorem fetchIssuesForRepos_empty_input
    (fetchOne : String → Except FetchErr RestResult) (sortBy : String) :
    fetchIssuesForRepos fetchOne none sortBy = (⟨0, [], none, none, []⟩, []) ∧
    fetchIssuesForRepos fetchOne (some []) sortBy = (⟨0, [], none, none, []⟩, []) := by
  constructor <;> rfl

/-- C10 witness: a concrete oracle that would return an item for any
repository; with no repositories it is never consulted. -/
theorem fetchIssuesForRepos_empty_input_witness :
    fetchIssuesForRepos (fun _ => Except.error ⟨none, "Error", none⟩) none "" =
      (⟨0, [], none, none, []⟩, []) ∧
    fetchIssuesForRepos (fun _ => Except.error ⟨none, "Error", none⟩) (some []) "" =
      (⟨0, [], none, none, []⟩, []) :=
  fetchIssuesForRepos_empty_input (fun _ => Except.error ⟨none, "Error", none⟩) ""

/-! ## C3 — TTL cache with conditional revalidation -/

/-- Lookup after insertion of the same key. -/
theorem cacheGet_set {α : Type} (m : CacheMap α) (k : String) (e : CacheEntry α) :
    cacheGet (cacheSet m k e) k = some e := by
  simp [cacheGet, cacheSet, List.find?]

/-- C3: for every cache key, (1) a `getCached` call that finds an entry
younger than `CACHE_DURATION` returns the stored payload with zero loader
dispatches and the cache unchanged; (2) when the entry is past TTL and the
loader reports not-modified, `getCached` returns the original payload,
dispatches once, and re-stores the entry with only its capture timestamp
refreshed (payload and revalidation token kept); (3) two sequential requests
of the same fingerprint — a cold miss followed by a within-TTL hit — produce
exactly one dispatch on the first call and zero on the second, which serves
the first call's payload. -/
theorem getCached_ttl (α : Type) (cache : CacheMap α) (k : String)
    (loader loader2 : Option String → LoaderResult α) (e : CacheEntry α)
    (now nowStore now2 now2Store : Nat) :
    (cacheGet cache k = some e → now - e.timestamp < CACHE_DURATION →
      getCached cache k loader now nowStore = (e.data, cache, 0)) ∧
    (cacheGet cache k = some e → ¬ now - e.timestamp < CACHE_DURATION →
      (loader e.etag).notModified = true →
      getCached cache k loader now nowStore =
        (e.data, cacheSet cache k { e with timestamp := nowStore }, 1)) ∧
    (cacheGet cache k = none → now2 - nowStore < CACHE_DURATION →
      (getCached cache k loader now nowStore).2.2 = 1 ∧
      getCached (getCached cache k loader now nowStore).2.1 k loader2 now2 now2Store =
        ((loader none).data, (getCached cache k loader now nowStore).2.1, 0)) := by
  refine ⟨?_, ?_, ?_⟩
  · intro h hf
    simp [getCached, h, hf]
  · intro h hs hnm
    simp [getCached, h, hs, hnm]
  · intro h hf
    constructor
    · simp [getCached, h]
    · simp [getCached, h, cacheGet_set, hf]

/-- C3 witness: an empty cache, a loader answering payload `7` with an
ETag, and a second request 10 ms after the first stored. -/
theorem getCached_ttl_witness :
    (getCached ([] : CacheMap Nat) "q" (fun _ => ⟨7, some "W", false⟩) 0 10).2.2 = 1 ∧
    getCached (getCached ([] : CacheMap Nat) "q" (fun _ => ⟨7, some "W", false⟩) 0 10).2.1
        "q" (fun _ => ⟨7, some "W", false⟩) 20 30 =
      (((fun (_ : Option String) => (⟨7, some "W", false⟩ : LoaderResult Nat)) none).data,
       (getCached ([] : CacheMap Nat) "q" (fun _ => ⟨7, some "W", false⟩) 0 10).2.1, 0) :=
  (getCached_ttl Nat [] "q" (fun _ => ⟨7, some "W", false⟩)
    (fun _ => ⟨7, some "W", false⟩) ⟨0, 0, none⟩ 0 10 20 30).2.2 rfl (by decide)

/-! ## C5 — 403 classification priority -/

/-- C5 counterexample: a 403 body carrying the secondary-rate-limit marker
is classified by the row-protocol branch as the (primary-style) rate-limit
case, not as the abuse/secondary case: `'secondary rate limit'` contains
`'rate limit'`, so the primary test fires first and the claimed priority of
the secondary marker does not hold. -/
theorem classify403_secondary_not_prioritized :
    jsIncludes "You have exceeded a secondary rate limit. Please wait." "secondary rate limit" = true ∧
    classify403 (some "You have exceeded a secondary rate limit. Please wait.") none = Rest403.rateLimit ∧
    Rest403.rateLimit ≠ Rest403.abuse := by
  refine ⟨by decide, by decide, by decide⟩

/-- C5 (amended): on the row-protocol 403 branch the primary test comes
first — a body mentioning rate limiting (which includes every
secondary-rate-limit message) or a zero remaining-quota header yields the
rate-limit case; only otherwise a body mentioning abuse detection yields the
softer abuse case; any other 403 is the unclassified forbidden case.  Only
the graph-protocol transport gives the secondary marker (body text or
documentation link) priority, and it marks exactly those 403s as secondary. -/
theorem classify403_characterization (m remaining : Option String)
    (status : Nat) (gm gd : Option String) :
    (classify403 m remaining = Rest403.rateLimit ↔
      ((m.map (fun s => jsIncludes s "rate limit")).getD false = true ∨
        remaining = some "0")) ∧
    (classify403 m remaining = Rest403.abuse ↔
      (¬((m.map (fun s => jsIncludes s "rate limit")).getD false = true ∨
          remaining = some "0") ∧
        (m.map (fun s => jsIncludes s "abuse")).getD false = true)) ∧
    (classify403 m remaining = Rest403.forbidden ↔
      (¬((m.map (fun s => jsIncludes s "rate limit")).getD false = true ∨
          remaining = some "0") ∧
        ¬(m.map (fun s => jsIncludes s "abuse")).getD false = true)) ∧
    ((gqlClassifyHttp status gm gd).isSecondaryRateLimit = true ↔
      (status = 403 ∧
        ((gm.map (fun s => jsIncludes s "secondary rate limit")).getD false = true ∨
          (gd.map (fun s => jsIncludes s "secondary-rate-limits")).getD false = true))) := by
  refine ⟨?_, ?_, ?_, ?_⟩
  · unfold classify403
    split_ifs with h1 h2 <;> simp [h1]
  · unfold classify403
    split_ifs with h1 h2 <;> simp_all
  · unfold classify403
    split_ifs with h1 h2 <;> simp_all
  · simp [gqlClassifyHttp, gqlIsSecondaryRL, Bool.and_eq_true, Bool.or_eq_true,
      beq_iff_eq]

/-- C5 amended-claim witness: a secondary-rate-limit body on the row path is
in the rate-limit case; the same body on the graph path is marked secondary. -/
theorem classify403_characterization_witness :
    classify403 (some "You have exceeded a secondary rate limit. Please wait.") none =
      Rest403.rateLimit ∧
    (gqlClassifyHttp 403 (some "You have exceeded a secondary rate limit. Please wait.")
      none).isSecondaryRateLimit = true := by
  constructor
  · exact (classify403_characterization
      (some "You have exceeded a secondary rate limit. Please wait.") none 403 none
      none).1.mpr (by decide)
  · exact (classify403_characterization
      (some "You have exceeded a secondary rate limit. Please wait.") none 403
      (some "You have exceeded a secondary rate limit. Please wait.")
      none).2.2.2.mpr (by decide)

/-! ## C6 — normalizer totality and defaults -/

/-- Truncating a body of at least 300 characters yields exactly 300. -/
theorem jsSlice300_len (s : String) (h : 300 ≤ s.length) :
    (jsSlice300 s).length = 300 := by
  have heq : (jsSlice300 s).length = (s.data.take 300).length := rfl
  have hl : s.length = s.data.length := rfl
  rw [heq, List.length_take, min_eq_left]
  rwa [hl] at h

/-- A body of at least 300 characters is not the empty string. -/
theorem ne_empty_of_300 (s : String) (h : 300 ≤ s.length) : s ≠ "" := by
  intro e
  subst e
  exact absurd h (by decide)

/-- C6 counterexample: the row-protocol normalizer is not total over records
with an absent author and maps no absence to a ghost default there — the
unguarded `issue.user.login` access fails (embedded as `none`) instead of
producing the sentinel `"ghost"` user. -/
theorem normalizeIssue_absent_author_not_ghost :
    normalizeIssue { id := 1, number := 2, title := "t", html_url := "u",
                     repository_url := "https://api.github.com/repos/o/r",
                     labels := [], user := none, comments := some 0,
                     created_at := "2026-01-01T00:00:00Z",
                     updated_at := "2026-01-02T00:00:00Z", body := none,
                     state := "open", assignee := none, reactions := none } =
      none := rfl

/-- C6 (amended): the graph-protocol normalizer is total and maps each
absent optional field to its documented default — absent author to the
sentinel `"ghost"` login with empty avatar and profile URL, absent comment
and reaction counts to zero, an absent assignee list to no assignee, and a
body of 300 or more characters is truncated to exactly 300.  The
row-protocol normalizer is total only over records whose author is present
(an absent author is a failure, not a ghost default); there it defaults an
absent reaction count to zero and truncates long bodies to exactly 300. -/
theorem normalizers_defaults (g : GNode) (r : RestIssue) :
    (g.author = none → (normalizeGraphQLIssue g).user = ⟨"ghost", "", ""⟩) ∧
    (g.comments = none → (normalizeGraphQLIssue g).comments = some 0) ∧
    (g.reactions = none → (normalizeGraphQLIssue g).reactions = 0) ∧
    (g.assignees = none → (normalizeGraphQLIssue g).assignee = none) ∧
    (∀ s, g.bodyText = some s → 300 ≤ s.length →
      (normalizeGraphQLIssue g).body.length = 300) ∧
    (r.user = none → normalizeIssue r = none) ∧
    (∀ u, r.user = some u → ∃ i, normalizeIssue r = some i ∧
      (r.reactions = none → i.reactions = 0) ∧
      (∀ s, r.body = some s → 300 ≤ s.length → i.body.length = 300)) := by
  refine ⟨?_, ?_, ?_, ?_, ?_, ?_, ?_⟩
  · intro h
    simp [normalizeGraphQLIssue, h]
  · intro h
    simp [normalizeGraphQLIssue, h]
  · intro h
    simp [normalizeGraphQLIssue, h]
  · intro h
    simp [normalizeGraphQLIssue, h]
  · intro s hs hl
    simp only [normalizeGraphQLIssue, hs, jsBodyPreview,
      if_neg (ne_empty_of_300 s hl)]
    exact jsSlice300_len s hl
  · intro h
    simp [normalizeIssue, h]
  · intro u hu
    refine ⟨_, by rw [normalizeIssue, hu], ?_, ?_⟩
    · intro hr
      simp [hr]
    · intro s hs hl
      simp only [hs, jsBodyPreview, if_neg (ne_empty_of_300 s hl)]
      exact jsSlice300_len s hl

/-- C6 amended-claim witness: a graph node missing every optional field
gets the documented defaults; a row record with an absent author fails. -/
theorem normalizers_defaults_witness :
    (normalizeGraphQLIssue { databaseId := 9, number := 1, title := "t",
                             url := "u", bodyText := none, state := none,
                             createdAt := "2026-01-01T00:00:00Z",
                             updatedAt := "2026-01-02T00:00:00Z",
                             comments := none, reactions := none,
                             labels := none, author := none, assignees := none,
                             repository := ⟨"o/r", "ru"⟩ }).user =
      ⟨"ghost", "", ""⟩ ∧
    normalizeIssue { id := 1, number := 2, title := "t", html_url := "u",
                     repository_url := "https://api.github.com/repos/o/r",
                     labels := [], user := none, comments := some 0,
                     created_at := "2026-01-01T00:00:00Z",
                     updated_at := "2026-01-02T00:00:00Z", body := none,
                     state := "open", assignee := none, reactions := none } =
      none := by
  constructor
  · exact (normalizers_defaults
      { databaseId := 9, number := 1, title := "t", url := "u",
        bodyText := none, state := none, createdAt := "2026-01-01T00:00:00Z",
        updatedAt := "2026-01-02T00:00:00Z", comments := none,
        reactions := none, labels := none, author := none, assignees := none,
        repository := ⟨"o/r", "ru"⟩ }
      { id := 1, number := 2, title := "t", html_url := "u",
        repository_url := "https://api.github.com/repos/o/r", labels := [],
        user := none, comments := some 0,
        created_at := "2026-01-01T00:00:00Z",
        updated_at := "2026-01-02T00:00:00Z", body := none, state := "open",
        assignee := none, reactions := none }).1 rfl
  · exact (normalizers_defaults
      { databaseId := 9, number := 1, title := "t", url := "u",
        bodyText := none, state := none, createdAt := "2026-01-01T00:00:00Z",
        updatedAt := "2026-01-02T00:00:00Z", comments := none,
        reactions := none, labels := none, author := none, assignees := none,
        repository := ⟨"o/r", "ru"⟩ }
      { id := 1, number := 2, title := "t", html_url := "u",
        repository_url := "https://api.github.com/repos/o/r", labels := [],
        user := none, comments := some 0,
        created_at := "2026-01-01T00:00:00Z",
        updated_at := "2026-01-02T00:00:00Z", body := none, state := "open",
        assignee := none, reactions := none }).2.2.2.2.2.1 rfl

/-! ## C7 — row/graph normalizer equivalence -/

/-- Removing the first occurrence of an exact leading pattern leaves the
tail. -/
theorem removeFirstList_append (p r : List Char) :
    removeFirstList p (p ++ r) = r := by
  have hpre : p.isPrefixOf (p ++ r) = true :=
    List.isPrefixOf_iff_prefix.mpr ⟨r, rfl⟩
  cases hpr : p ++ r with
  | nil =>
    obtain ⟨hp, hr⟩ := List.append_eq_nil.mp hpr
    subst hp
    subst hr
    rfl
  | cons c t =>
    simp only [removeFirstList]
    rw [← hpr]
    simp [hpre]

/-- Applying `s.replace(pat, '')` to a string that starts with `prefix` strips it. -/
theorem jsRemoveFirst_append (p r : String) : jsRemoveFirst (p ++ r) p = r := by
  unfold jsRemoveFirst
  rw [String.data_append, removeFirstList_append]

/-- C7 counterexample: a row-protocol record and a graph-protocol node with
the same id and the same value in every shared field, whose author is absent
in both shapes, do not normalize to byte-identical records: the row
normalizer fails on the unguarded `issue.user.login` access (embedded as
`none`) while the graph normalizer produces the full ghost record — so the
claimed equivalence over all same-field-values pairs is false. -/
theorem normalize_equivalence_fails_absent_author :
    normalizeIssue { id := 5, number := 3, title := "T",
                     html_url := "https://github.com/o/r/issues/3",
                     repository_url := "https://api.github.com/repos/o/r",
                     labels := [], user := none, comments := some 0,
                     created_at := "2026-01-01T00:00:00Z",
                     updated_at := "2026-01-02T00:00:00Z", body := none,
                     state := "open", assignee := none, reactions := none } =
      none ∧
    (normalizeGraphQLIssue { databaseId := 5, number := 3, title := "T",
                             url := "https://github.com/o/r/issues/3",
                             bodyText := none, state := some "OPEN",
                             createdAt := "2026-01-01T00:00:00Z",
                             updatedAt := "2026-01-02T00:00:00Z",
                             comments := some ⟨0⟩, reactions := none,
                             labels := some ⟨[]⟩, author := none,
                             assignees := some ⟨[]⟩,
                             repository := ⟨"o/r", "https://github.com/o/r"⟩ }).user =
      ⟨"ghost", "", ""⟩ ∧
    normalizeIssue { id := 5, number := 3, title := "T",
                     html_url := "https://github.com/o/r/issues/3",
                     repository_url := "https://api.github.com/repos/o/r",
                     labels := [], user := none, comments := some 0,
                     created_at := "2026-01-01T00:00:00Z",
                     updated_at := "2026-01-02T00:00:00Z", body := none,
                     state := "open", assignee := none, reactions := none } ≠
      some (normalizeGraphQLIssue { databaseId := 5, number := 3, title := "T",
                                    url := "https://github.com/o/r/issues/3",
                                    bodyText := none, state := some "OPEN",
                                    createdAt := "2026-01-01T00:00:00Z",
                                    updatedAt := "2026-01-02T00:00:00Z",
                                    comments := some ⟨0⟩, reactions := none,
                                    labels := some ⟨[]⟩, author := none,
                                    assignees := some ⟨[]⟩,
                                    repository := ⟨"o/r", "https://github.com/o/r"⟩ }) := by
  refine ⟨rfl, by decide, by decide⟩

/-- C7 (amended): a row-protocol record and a graph-protocol node describing
the same upstream issue with the author present in both shapes (`SameIssue`:
same id, same field values, author present) normalize to byte-identical
canonical Issue records; when the author is absent in both shapes the row
normalizer fails while the graph normalizer yields the ghost record, so the
equivalence holds exactly on the author-present pairs. -/
theorem normalize_equivalence (r : RestIssue) (g : GNode) (h : SameIssue r g) :
    normalizeIssue r = some (normalizeGraphQLIssue g) := by
  obtain ⟨h1, h2, h3, h4, h5, h6, h7, h8, h9, h10, h11, h12, h13, h14, h15⟩ := h
  cases ha : g.author with
  | none =>
    rw [ha] at h8
    simp at h8
  | some a =>
    rw [ha] at h7
    simp [normalizeIssue, normalizeGraphQLIssue, h7, ha, h1, h2, h3, h4, h5,
      h6, h9, h10, h11, h12, h13, h14, h15, jsRemoveFirst_append]

/-- C7 witness: a concrete issue in both upstream shapes. -/
theorem normalize_equivalence_witness :
    normalizeIssue { id := 5, number := 3, title := "T",
                     html_url := "https://github.com/o/r/issues/3",
                     repository_url := "https://api.github.com/repos/o/r",
                     labels := [⟨"bug", "f00"⟩],
                     user := some ⟨"alice", "av", "pu"⟩, comments := some 4,
                     created_at := "2026-01-01T00:00:00Z",
                     updated_at := "2026-01-02T00:00:00Z",
                     body := some "hello", state := "open",
                     assignee := some ⟨"bob"⟩, reactions := some ⟨6⟩ } =
      some (normalizeGraphQLIssue { databaseId := 5, number := 3,
                                    title := "T",
                                    url := "https://github.com/o/r/issues/3",
                                    bodyText := some "hello",
                                    state := some "OPEN",
                                    createdAt := "2026-01-01T00:00:00Z",
                                    updatedAt := "2026-01-02T00:00:00Z",
                                    comments := some ⟨4⟩,
                                    reactions := some ⟨6⟩,
                                    labels := some ⟨[⟨"bug", "f00"⟩]⟩,
                                    author := some ⟨"alice", "av", "pu"⟩,
                                    assignees := some ⟨[⟨"bob"⟩]⟩,
                                    repository := ⟨"o/r", "https://github.com/o/r"⟩ }) :=
  normalize_equivalence
    { id := 5, number := 3, title := "T",
      html_url := "https://github.com/o/r/issues/3",
      repository_url := "https://api.github.com/repos/o/r",
      labels := [⟨"bug", "f00"⟩], user := some ⟨"alice", "av", "pu"⟩,
      comments := some 4, created_at := "2026-01-01T00:00:00Z",
      updated_at := "2026-01-02T00:00:00Z", body := some "hello",
      state := "open", assignee := some ⟨"bob"⟩, reactions := some ⟨6⟩ }
    { databaseId := 5, number := 3, title := "T",
      url := "https://github.com/o/r/issues/3", bodyText := some "hello",
      state := some "OPEN", createdAt := "2026-01-01T00:00:00Z",
      updatedAt := "2026-01-02T00:00:00Z", comments := some ⟨4⟩,
      reactions := some ⟨6⟩, labels := some ⟨[⟨"bug", "f00"⟩]⟩,
      author := some ⟨"alice", "av", "pu"⟩, assignees := some ⟨[⟨"bob"⟩]⟩,
      repository := ⟨"o/r", "https://github.com/o/r"⟩ }
    (by refine ⟨rfl, rfl, rfl, rfl, by decide, rfl, rfl, rfl, rfl, rfl, rfl,
      rfl, by decide, rfl, rfl⟩)

/-! ## C1 — row-protocol multi-repository fan-out -/

/-- The settled-results loop collects one error entry per rejected source,
in order. -/
theorem aggregateFrom_errors (ps : List (String × Except FetchErr RestResult)) :
    ∀ acc, (aggregateFrom acc ps).errors =
      acc.errors ++ ps.filterMap (fun p =>
        match p.2 with
        | Except.error e => some ⟨p.1, errText e, e.status⟩
        | Except.ok _ => none) := by
  induction ps with
  | nil =>
    intro acc
    simp [aggregateFrom]
  | cons p rest ih =>
    intro acc
    rw [aggregateFrom, ih]
    cases hp : p.2 with
    | ok v => simp [aggStep, hp]
    | error e => simp [aggStep, hp]

/-- The settled-results loop sums the fulfilled sources' totals. -/
theorem aggregateFrom_total (ps : List (String × Except FetchErr RestResult)) :
    ∀ acc, (aggregateFrom acc ps).totalCount =
      acc.totalCount + (ps.map (fun p =>
        match p.2 with
        | Except.ok v => v.totalCount
        | Except.error _ => 0)).sum := by
  induction ps with
  | nil =>
    intro acc
    simp [aggregateFrom]
  | cons p rest ih =>
    intro acc
    rw [aggregateFrom, ih]
    cases hp : p.2 with
    | ok v => simp [aggStep, hp]; omega
    | error e => simp [aggStep, hp]

/-- The settled-results loop concatenates the fulfilled sources' items,
in order. -/
theorem aggregateFrom_items (ps : List (String × Except FetchErr RestResult)) :
    ∀ acc, (aggregateFrom acc ps).items =
      acc.items ++ ps.flatMap (fun p =>
        match p.2 with
        | Except.ok v => v.items
        | Except.error _ => []) := by
  induction ps with
  | nil =>
    intro acc
    simp [aggregateFrom]
  | cons p rest ih =>
    intro acc
    rw [aggregateFrom, ih]
    cases hp : p.2 with
    | ok v => simp [aggStep, hp]
    | error e => simp [aggStep, hp]

/-- De-duplication keeps, for every incoming item, either a prior id in the
`seen` set or a representative with the same id. -/
theorem dedupeAux_id_cover (l : List Issue) :
    ∀ (seen : List Nat) (a : Issue), a ∈ l →
      a.id ∈ seen ∨ ∃ b ∈ dedupeAux seen l, b.id = a.id := by
  induction l with
  | nil =>
    intro seen a ha
    simp at ha
  | cons i rest ih =>
    intro seen a ha
    rcases List.mem_cons.mp ha with rfl | ha
    · by_cases hs : seen.contains a.id = true
      · left
        simpa using hs
      · right
        refine ⟨a, ?_, rfl⟩
        rw [dedupeAux, if_neg hs]
        exact List.mem_cons_self a _
    · by_cases hs : seen.contains i.id = true
      · rw [dedupeAux, if_pos hs]
        exact ih seen a ha
      · rw [dedupeAux, if_neg hs]
        rcases ih (i.id :: seen) a ha with hmem | ⟨b, hb, hid⟩
        · rcases List.mem_cons.mp hmem with heq | hmem
          · right
            exact ⟨i, List.mem_cons_self i _, heq.symm⟩
          · left
            exact hmem
        · right
          exact ⟨b, List.mem_cons_of_mem i hb, hid⟩

/-- Every merged item keeps a same-id representative after de-duplication. -/
theorem dedupeById_id_cover (l : List Issue) (a : Issue) (ha : a ∈ l) :
    ∃ b ∈ dedupeById l, b.id = a.id := by
  rcases dedupeAux_id_cover l [] a ha with hmem | h
  · simp at hmem
  · exact h

/-- C1 counterexample: across 3 repositories where the 2nd rejects with a
rate-limit-primary error, `fetchIssuesForRepos` still issues the upstream
call for repository 3 — the calls-made list is all three repositories, so
"zero calls are made for repository 3" (and the sequential rate-limit abort)
fails; the fan-out is a concurrent `Promise.allSettled` with no abort. -/
theorem fetchIssuesForRepos_rateLimit_still_calls_third :
    (fetchIssuesForRepos
      (fun repo => if repo = "r2"
        then Except.error ⟨some "API rate limit exceeded. Try again later.",
          "Error", some 403⟩
        else Except.ok ⟨1, [], 4999, 1700000000⟩)
      (some ["r1", "r2", "r3"]) "").2 = ["r1", "r2", "r3"] ∧
    "r3" ∈ (fetchIssuesForRepos
      (fun repo => if repo = "r2"
        then Except.error ⟨some "API rate limit exceeded. Try again later.",
          "Error", some 403⟩
        else Except.ok ⟨1, [], 4999, 1700000000⟩)
      (some ["r1", "r2", "r3"]) "").2 ∧
    (fetchIssuesForRepos
      (fun repo => if repo = "r2"
        then Except.error ⟨some "API rate limit exceeded. Try again later.",
          "Error", some 403⟩
        else Except.ok ⟨1, [], 4999, 1700000000⟩)
      (some ["r1", "r2", "r3"]) "").1.errors =
      [⟨"r2", "API rate limit exceeded. Try again later.", some 403⟩] := by
  refine ⟨rfl, by decide, by decide⟩

/-- C1 (amended): `fetchIssuesForRepos` issues its per-repository upstream
calls concurrently through `Promise.allSettled` — one call per repository,
for every repository of the list, regardless of any rate-limit failure among
them (no abort).  Each rejected repository contributes exactly one error
entry, in order; the total is the sum of the fulfilled totals; and every
fulfilled repository's items keep a same-id representative in the final
merged result. -/
theorem fetchIssuesForRepos_concurrent
    (fetchOne : String → Except FetchErr RestResult) (l : List String)
    (sortBy : String) :
    (fetchIssuesForRepos fetchOne (some l) sortBy).2 = l ∧
    (fetchIssuesForRepos fetchOne (some l) sortBy).1.errors =
      l.filterMap (fun repo =>
        match fetchOne repo with
        | Except.error e => some ⟨repo, errText e, e.status⟩
        | Except.ok _ => none) ∧
    (fetchIssuesForRepos fetchOne (some l) sortBy).1.totalCount =
      (l.map (fun repo =>
        match fetchOne repo with
        | Except.ok v => v.totalCount
        | Except.error _ => 0)).sum ∧
    (∀ a ∈ l.flatMap (fun repo =>
        match fetchOne repo with
        | Except.ok v => v.items
        | Except.error _ => []),
      ∃ b ∈ (fetchIssuesForRepos fetchOne (some l) sortBy).1.items,
        b.id = a.id) := by
  cases l with
  | nil => exact ⟨rfl, rfl, rfl, by intro a ha; simp at ha⟩
  | cons x xs =>
    have hne : ((x :: xs).isEmpty) = false := rfl
    refine ⟨rfl, ?_, ?_, ?_⟩
    · show (aggregateFrom ⟨[], 0, none, none, []⟩
        ((x :: xs).map (fun repo => (repo, fetchOne repo)))).errors = _
      rw [aggregateFrom_errors, List.filterMap_map]
      rfl
    · show (aggregateFrom ⟨[], 0, none, none, []⟩
        ((x :: xs).map (fun repo => (repo, fetchOne repo)))).totalCount = _
      rw [aggregateFrom_total, List.map_map]
      show 0 + _ = _
      rw [Nat.zero_add]
      rfl
    · intro a ha
      have hmem : a ∈ (aggregateFrom ⟨[], 0, none, none, []⟩
          ((x :: xs).map (fun repo => (repo, fetchOne repo)))).items := by
        rw [aggregateFrom_items, List.flatMap_map]
        exact ha
      obtain ⟨b, hb, hid⟩ := dedupeById_id_cover _ a hmem
      refine ⟨b, ?_, hid⟩
      show b ∈ jsSortIssues (jsOr sortBy "reactions") (dedupeById _)
      rw [jsSortIssues, List.mem_mergeSort]
      exact hb

/-- C1 amended-claim witness: the three-repository scenario of the claim,
instantiating the concurrency theorem. -/
theorem fetchIssuesForRepos_concurrent_witness :
    (fetchIssuesForRepos
      (fun repo => if repo = "rB"
        then Except.error ⟨some "API rate limit exceeded. Try again later.",
          "Error", some 403⟩
        else Except.ok ⟨1, [], 4999, 1700000000⟩)
      (some ["rA", "rB", "rC"]) "").2 = ["rA", "rB", "rC"] :=
  (fetchIssuesForRepos_concurrent
    (fun repo => if repo = "rB"
      then Except.error ⟨some "API rate limit exceeded. Try again later.",
        "Error", some 403⟩
      else Except.ok ⟨1, [], 4999, 1700000000⟩)
    ["rA", "rB", "rC"] "").1

/-! ## C4 — row-protocol fetch is not cache-fronted -/

/-- C4 counterexample: even with a fresh cache entry (capture time equal to
the present instant, a stored revalidation token) already in the cache map,
a `fetchIssues` call performs one network dispatch, leaves that cache map
untouched, and sends no `If-None-Match` header — so the row-protocol page
fetch neither consults the TTL cache, nor dispatches through the throttle
queue, nor attaches the stored revalidation token. -/
theorem fetchIssues_not_cache_fronted :
    (fetchIssuesRequest id (fun _ _ => (0 : Nat)) {} "tok" 1 30
      ([("k", ⟨99, 0, some "W-abc"⟩)] : CacheMap Nat)).2.2 = 1 ∧
    (fetchIssuesRequest id (fun _ _ => (0 : Nat)) {} "tok" 1 30
      ([("k", ⟨99, 0, some "W-abc"⟩)] : CacheMap Nat)).2.1 =
      ([("k", ⟨99, 0, some "W-abc"⟩)] : CacheMap Nat) ∧
    (∀ p ∈ fetchIssuesHeaders "tok", p.1 ≠ "If-None-Match") := by
  refine ⟨rfl, rfl, by decide⟩

/-- C4 (amended): `fetchIssues` always dispatches exactly one direct network
request per call — it never reads or writes the TTL cache, never goes
through the throttle queue, and sends only the `Accept` header plus an
`Authorization` header when a token is given; no conditional
`If-None-Match` revalidation header is ever attached. -/
theorem fetchIssues_direct (α β : Type) (enc : String → String)
    (net : String → List (String × String) → β) (f : Filter) (token : String)
    (page perPage : Nat) (cache : CacheMap α) :
    (fetchIssuesRequest enc net f token page perPage cache).2.1 = cache ∧
    (fetchIssuesRequest enc net f token page perPage cache).2.2 = 1 ∧
    (fetchIssuesRequest enc net f token page perPage cache).1 =
      net (fetchIssuesUrl enc f page perPage) (fetchIssuesHeaders token) ∧
    (∀ p ∈ fetchIssuesHeaders token, p.1 = "Accept" ∨ p.1 = "Authorization") := by
  refine ⟨rfl, rfl, rfl, ?_⟩
  intro p hp
  simp only [fetchIssuesHeaders, List.mem_cons] at hp
  rcases hp with rfl | hp
  · left
    rfl
  · by_cases h : token ≠ ""
    · rw [if_pos h] at hp
      simp only [List.mem_singleton] at hp
      subst hp
      right
      rfl
    · rw [if_neg h] at hp
      simp at hp

/-- C4 amended-claim witness: a concrete call with a token and a populated
cache map. -/
theorem fetchIssues_direct_witness :
    (fetchIssuesRequest id (fun _ _ => (0 : Nat)) {} "tok" 1 30
      ([("k2", ⟨7, 5, none⟩)] : CacheMap Nat)).2.1 =
      ([("k2", ⟨7, 5, none⟩)] : CacheMap Nat) ∧
    (fetchIssuesRequest id (fun _ _ => (0 : Nat)) {} "tok" 1 30
      ([("k2", ⟨7, 5, none⟩)] : CacheMap Nat)).2.2 = 1 :=
  ⟨(fetchIssues_direct Nat Nat id (fun _ _ => 0) {} "tok" 1 30
      ([("k2", ⟨7, 5, none⟩)] : CacheMap Nat)).1,
   (fetchIssues_direct Nat Nat id (fun _ _ => 0) {} "tok" 1 30
      ([("k2", ⟨7, 5, none⟩)] : CacheMap Nat)).2.1⟩

/-! ## C8 — graph-protocol chunked fan-out -/

/-- The function `chunksOfAux` does not depend on the fuel once the fuel covers the
list length. -/
theorem chunksOfAux_fuel (f1 : Nat) : ∀ (f2 : Nat) (l : List String),
    l.length ≤ f1 → l.length ≤ f2 → chunksOfAux f1 l = chunksOfAux f2 l := by
  induction f1 with
  | zero =>
    intro f2 l h1 _
    have hl : l = [] := List.length_eq_zero.mp (Nat.le_zero.mp h1)
    subst hl
    cases f2 <;> rfl
  | succ n ih =>
    intro f2 l h1 h2
    cases l with
    | nil => cases f2 <;> rfl
    | cons x xs =>
      cases f2 with
      | zero => simp at h2
      | succ m =>
        simp only [chunksOfAux]
        congr 1
        apply ih
        · rw [List.length_drop]
          simp only [List.length_cons] at h1 ⊢
          simp only [GQL_BATCH_SIZE]
          omega
        · rw [List.length_drop]
          simp only [List.length_cons] at h2 ⊢
          simp only [GQL_BATCH_SIZE]
          omega

/-- One unfolding step of the chunking loop. -/
theorem chunksOf_cons (x : String) (xs : List String) :
    chunksOf (x :: xs) =
      (x :: xs).take GQL_BATCH_SIZE ::
        chunksOf ((x :: xs).drop GQL_BATCH_SIZE) := by
  show chunksOfAux (x :: xs).length (x :: xs) = _
  simp only [List.length_cons, chunksOfAux]
  congr 1
  apply chunksOfAux_fuel
  · rw [List.length_drop]
    simp only [List.length_cons, GQL_BATCH_SIZE]
    omega
  · exact le_rfl

/-- The chunks concatenate back to the whole repository list: the chunking
is a partition. -/
theorem chunksOf_flatten (l : List String) : (chunksOf l).flatten = l := by
  have key : ∀ n (l : List String), l.length ≤ n → (chunksOf l).flatten = l := by
    intro n
    induction n with
    | zero =>
      intro l h
      have hl : l = [] := List.length_eq_zero.mp (Nat.le_zero.mp h)
      subst hl
      rfl
    | succ n ih =>
      intro l h
      cases l with
      | nil => rfl
      | cons x xs =>
        have hlen : ((x :: xs).drop GQL_BATCH_SIZE).length ≤ n := by
          rw [List.length_drop]
          simp only [List.length_cons] at h ⊢
          simp only [GQL_BATCH_SIZE]
          omega
        rw [chunksOf_cons, List.flatten_cons, ih _ hlen, List.take_append_drop]
  exact key l.length l le_rfl

/-- Every chunk is of at most `GQL_BATCH_SIZE` repositories. -/
theorem chunksOf_le (l : List String) :
    ∀ c ∈ chunksOf l, c.length ≤ GQL_BATCH_SIZE := by
  have key : ∀ n (l : List String), l.length ≤ n →
      ∀ c ∈ chunksOf l, c.length ≤ GQL_BATCH_SIZE := by
    intro n
    induction n with
    | zero =>
      intro l h c hc
      have hl : l = [] := List.length_eq_zero.mp (Nat.le_zero.mp h)
      subst hl
      simp [chunksOf, chunksOfAux] at hc
    | succ n ih =>
      intro l h c hc
      cases l with
      | nil => simp [chunksOf, chunksOfAux] at hc
      | cons x xs =>
        rw [chunksOf_cons] at hc
        rcases List.mem_cons.mp hc with rfl | hc
        · rw [List.length_take]
          exact min_le_left _ _
        · have hlen : ((x :: xs).drop GQL_BATCH_SIZE).length ≤ n := by
            rw [List.length_drop]
            simp only [List.length_cons] at h ⊢
            simp only [GQL_BATCH_SIZE]
            omega
          exact ih _ hlen c hc
  exact key l.length l le_rfl

/-- Characterization of the chunk loop: the issued requests are a prefix of
the chunk list, equal to all of it when no rate-limit failure occurs among
them; errors come one per repository of each failed issued chunk; items and
totals come from the successful issued chunks; and a chunk whose failure is
a rate-limit stop is always the last one issued. -/
theorem runBatches_spec (respond : List String → Except GqlFail GBatch) :
    ∀ chunks : List (List String),
      (∃ t, chunks = (runBatches respond chunks).requests ++ t) ∧
      ((∀ c ∈ chunks, rlStop (respond c) = false) →
        (runBatches respond chunks).requests = chunks) ∧
      ((runBatches respond chunks).errors =
        (runBatches respond chunks).requests.flatMap (fun c =>
          match respond c with
          | Except.error e =>
            c.map (fun repo => ⟨repo, e.message.getD "Unknown error", e.status⟩)
          | Except.ok _ => [])) ∧
      ((runBatches respond chunks).items =
        (runBatches respond chunks).requests.flatMap (fun c =>
          match respond c with
          | Except.ok d => collectChunk d c
          | Except.error _ => [])) ∧
      ((runBatches respond chunks).total =
        ((runBatches respond chunks).requests.map (fun c =>
          match respond c with
          | Except.ok d => chunkTotal d c
          | Except.error _ => 0)).sum) ∧
      (∀ i (h : i < (runBatches respond chunks).requests.length),
        rlStop (respond ((runBatches respond chunks).requests.get ⟨i, h⟩)) = true →
        i + 1 = (runBatches respond chunks).requests.length) := by
  intro chunks
  induction chunks with
  | nil =>
    refine ⟨⟨[], rfl⟩, fun _ => rfl, rfl, rfl, rfl, ?_⟩
    intro i h
    simp [runBatches] at h
  | cons c rest ih =>
    obtain ⟨⟨t, ht⟩, hreq, herr, hitems, htot, habort⟩ := ih
    cases hr : respond c with
    | ok d =>
      have hrun : runBatches respond (c :: rest) =
          ⟨collectChunk d c ++ (runBatches respond rest).items,
           chunkTotal d c + (runBatches respond rest).total,
           (runBatches respond rest).errors,
           c :: (runBatches respond rest).requests⟩ := by
        simp only [runBatches, hr]
      rw [hrun]
      refine ⟨⟨t, by rw [List.cons_append, ← ht]⟩, ?_, ?_, ?_, ?_, ?_⟩
      · intro hall
        have hrest : (runBatches respond rest).requests = rest :=
          hreq (fun c' hc' => hall c' (List.mem_cons_of_mem _ hc'))
        rw [hrest]
      · simp only [List.flatMap_cons, hr]
        rw [herr]
        rfl
      · simp only [List.flatMap_cons, hr]
        rw [hitems]
      · simp only [List.map_cons, List.sum_cons, hr]
        rw [htot]
      · intro i h hstop
        cases i with
        | zero =>
          have hget : ((c :: (runBatches respond rest).requests).get ⟨0, h⟩) = c := rfl
          rw [hget, hr] at hstop
          simp [rlStop] at hstop
        | succ i =>
          have h' : i < (runBatches respond rest).requests.length := by
            simp only [List.length_cons] at h
            omega
          have hi := habort i h' hstop
          simp only [List.length_cons]
          omega
    | error e =>
      by_cases hstop : (e.isRateLimit || e.status == some 429) = true
      · have hrun : runBatches respond (c :: rest) =
            ⟨[], 0,
             c.map (fun repo => ⟨repo, e.message.getD "Unknown error", e.status⟩),
             [c]⟩ := by
          simp only [runBatches, hr, hstop, if_true]
        rw [hrun]
        refine ⟨⟨rest, rfl⟩, ?_, ?_, ?_, ?_, ?_⟩
        · intro hall
          have := hall c (List.mem_cons_self c rest)
          rw [hr] at this
          simp only [rlStop] at this
          rw [hstop] at this
          exact absurd this (by decide)
        · simp [hr]
        · simp [hr]
        · simp [hr]
        · intro i h _
          simp only [List.length_cons, List.length_nil] at h ⊢
          omega
      · have hrun : runBatches respond (c :: rest) =
            ⟨(runBatches respond rest).items,
             (runBatches respond rest).total,
             c.map (fun repo => ⟨repo, e.message.getD "Unknown error", e.status⟩)
               ++ (runBatches respond rest).errors,
             c :: (runBatches respond rest).requests⟩ := by
          simp only [runBatches, hr]
          rw [if_neg hstop]
        rw [hrun]
        refine ⟨⟨t, by rw [List.cons_append, ← ht]⟩, ?_, ?_, ?_, ?_, ?_⟩
        · intro hall
          have hrest : (runBatches respond rest).requests = rest :=
            hreq (fun c' hc' => hall c' (List.mem_cons_of_mem _ hc'))
          rw [hrest]
        · simp only [List.flatMap_cons, hr]
          rw [herr]
        · simp only [List.flatMap_cons, hr]
          rw [hitems]
          rfl
        · simp only [List.map_cons, List.sum_cons, hr]
          rw [htot]
          omega
        · intro i h hst
          cases i with
          | zero =>
            have hget : ((c :: (runBatches respond rest).requests).get ⟨0, h⟩) = c := rfl
            rw [hget, hr] at hst
            simp only [rlStop] at hst
            exact absurd hst hstop
          | succ i =>
            have h' : i < (runBatches respond rest).requests.length := by
              simp only [List.length_cons] at h
              omega
            have hi := habort i h' hst
            simp only [List.length_cons]
            omega

/-- C8: for every repository list, the batched graph fan-out partitions the
list into chunks of at most `GQL_BATCH_SIZE` (10) repositories whose
concatenation is the whole list; the issued requests (one per chunk,
surfaced by `fetchIssuesForReposGraphQL`) are a prefix of the chunk list and
are exactly the chunk list when no rate-limit failure occurs; a failed chunk
yields one classified error entry per repository of that chunk while
successful chunks still contribute their per-alias items and totals; and a
chunk failing with a rate-limit stop is always the last chunk issued. -/
theorem fetchIssuesForReposGraphQL_batching
    (respond : List String → Except GqlFail GBatch) (repos : List String)
    (sortBy : String) :
    (chunksOf repos).flatten = repos ∧
    (∀ c ∈ chunksOf repos, c.length ≤ GQL_BATCH_SIZE) ∧
    (fetchIssuesForReposGraphQL respond repos sortBy).requests =
      (runBatches respond (chunksOf repos)).requests ∧
    (fetchIssuesForReposGraphQL respond repos sortBy).errors =
      (runBatches respond (chunksOf repos)).errors ∧
    (∃ t, chunksOf repos = (runBatches respond (chunksOf repos)).requests ++ t) ∧
    ((∀ c ∈ chunksOf repos, rlStop (respond c) = false) →
      (runBatches respond (chunksOf repos)).requests = chunksOf repos) ∧
    ((runBatches respond (chunksOf repos)).errors =
      (runBatches respond (chunksOf repos)).requests.flatMap (fun c =>
        match respond c with
        | Except.error e =>
          c.map (fun repo => ⟨repo, e.message.getD "Unknown error", e.status⟩)
        | Except.ok _ => [])) ∧
    ((runBatches respond (chunksOf repos)).items =
      (runBatches respond (chunksOf repos)).requests.flatMap (fun c =>
        match respond c with
        | Except.ok d => collectChunk d c
        | Except.error _ => [])) ∧
    ((runBatches respond (chunksOf repos)).total =
      ((runBatches respond (chunksOf repos)).requests.map (fun c =>
        match respond c with
        | Except.ok d => chunkTotal d c
        | Except.error _ => 0)).sum) ∧
    (∀ i (h : i < (runBatches respond (chunksOf repos)).requests.length),
      rlStop (respond ((runBatches respond (chunksOf repos)).requests.get ⟨i, h⟩)) = true →
      i + 1 = (runBatches respond (chunksOf repos)).requests.length) := by
  obtain ⟨h1, h2, h3, h4, h5, h6⟩ := runBatches_spec respond (chunksOf repos)
  exact ⟨chunksOf_flatten repos, chunksOf_le repos, rfl, rfl, h1, h2, h3, h4,
    h5, h6⟩

/-- C8 witness: two repositories, one all-successful chunk — the issued
requests are exactly the chunk list. -/
theorem fetchIssuesForReposGraphQL_batching_witness :
    (runBatches (fun _ => Except.ok ([] : GBatch)) (chunksOf ["a", "b"])).requests =
      chunksOf ["a", "b"] :=
  (fetchIssuesForReposGraphQL_batching (fun _ => Except.ok ([] : GBatch))
    ["a", "b"] "").2.2.2.2.2.1 (by decide)

end FreshIssues
